import Mathlib

/-!
# Management surface of the LFS test server (`mgmt.go`)

A shallow embedding of `mgmt.go`: the Basic-Auth gate (`basicAuth`, `authenticate`),
the route table (`addMgmt`), the user handlers (`addUserHandler`, `delUserHandler`)
and the reconciliation walk (`refreshHandler`).

Conventions of the embedding.

* A Go `string` is a sequence of bytes.  `GoString` is a list with one element per byte
  (the `Char` type is used as the element type so that ASCII text can be written as a
  literal, `"ab/cd".toList`).  Slicing is by position, as in Go.
* A Go panic does not unwind the effects made so far: the state records it in a
  `panic` field and the code that follows the panicking statement is not run.
* The metadata store is reached through an interface in the source; the embedding is
  parametric in the store state `σ` and in the store operations (`MetaStore σ`).
-/

namespace Mgmt

/-! ## Strings, slices, panics -/

/-- Go strings: one list element per byte. -/
abbrev GoString := List Char

/-- Go errors are carried as their message. -/
abbrev GoError := String

/-- Run-time panics that the embedded code can raise. -/
inductive GoPanic where
  /-- Go panic `slice bounds out of range` for `s[lo:hi]` with `len(s) = len`. -/
  | sliceBounds (lo hi len : Nat)
  /-- A panic raised by a library call (`rice.MustFindBox`, `template.Must`). -/
  | library (msg : String)
  deriving DecidableEq, Repr

/-- Go slice expression `s[lo:hi]` on a string: defined when `lo ≤ hi ≤ len(s)`,
a run-time panic otherwise. -/
def slice (s : GoString) (lo hi : Nat) : Except GoPanic GoString :=
  if lo ≤ hi ∧ hi ≤ s.length then
    .ok ((s.drop lo).take (hi - lo))
  else
    .error (.sliceBounds lo hi s.length)

/-- The oid expression of `refreshHandler` (mgmt.go line 98):
`relPath[0:2] + relPath[3:5] + relPath[6:len(relPath)]`, operands evaluated left to
right. -/
def oidOfRelPath (relPath : GoString) : Except GoPanic GoString :=
  match slice relPath 0 2 with
  | .error p => .error p
  | .ok a =>
    match slice relPath 3 5 with
    | .error p => .error p
    | .ok b =>
      match slice relPath 6 relPath.length with
      | .error p => .error p
      | .ok c => .ok (a ++ b ++ c)

/-- The path separator of `filepath`. -/
def Separator : Char := '/'

/-- Number of path separators in a relative path. -/
def separatorCount (p : GoString) : Nat := p.count Separator

instance (ε α : Type) [DecidableEq ε] [DecidableEq α] : DecidableEq (Except ε α) :=
  fun a b =>
    match a, b with
    | .ok x, .ok y => if h : x = y then isTrue (by rw [h]) else isFalse (by intro e; cases e; exact h rfl)
    | .error x, .error y => if h : x = y then isTrue (by rw [h]) else isFalse (by intro e; cases e; exact h rfl)
    | .ok _, .error _ => isFalse (by intro e; cases e)
    | .error _, .ok _ => isFalse (by intro e; cases e)

/-! ## Configuration, requests, responses -/

/-- The fields of the process-wide `Config` that `mgmt.go` reads. -/
structure Configuration where
  AdminUser : GoString
  AdminPass : GoString
  ContentPath : GoString
  deriving DecidableEq, Repr

/-- The parts of an `*http.Request` that the handlers read. -/
structure Request where
  /-- Result of `r.BasicAuth()`: `some (user, pass)` when `ok`, `none` otherwise. -/
  BasicAuth : Option (GoString × GoString)
  /-- The parsed form, read through `r.FormValue`. -/
  Form : List (String × GoString)
  /-- The route variables, `mux.Vars(r)`. -/
  Vars : List (String × GoString)
  deriving DecidableEq, Repr

/-- The call `r.FormValue(key)`: the first value of the key, `""` when absent. -/
def Request.FormValue (r : Request) (key : String) : GoString :=
  (r.Form.lookup key).getD []

/-- An `http.ResponseWriter`: the header map, the status line once written, the body. -/
structure ResponseWriter where
  header : List (String × GoString)
  status : Option Nat
  body : GoString
  deriving DecidableEq, Repr

/-- The writer a handler receives for a new request. -/
def ResponseWriter.fresh : ResponseWriter := ⟨[], none, []⟩

/-- The call `w.Header().Set(key, value)`. -/
def ResponseWriter.HeaderSet (w : ResponseWriter) (key : String) (value : GoString) :
    ResponseWriter :=
  { w with header := (key, value) :: w.header.filter (fun kv => kv.1 ≠ key) }

/-- The call `w.Header().Get(key)`. -/
def ResponseWriter.HeaderGet (w : ResponseWriter) (key : String) : Option GoString :=
  w.header.lookup key

/-- The call `w.WriteHeader(code)`: the first status written stands. -/
def ResponseWriter.WriteHeader (w : ResponseWriter) (code : Nat) : ResponseWriter :=
  match w.status with
  | some _ => w
  | none => { w with status := some code }

/-- Writing to the body (`fmt.Fprint(w, s)`, `io.Copy(w, f)`): sends status 200 first when no
status has been written. -/
def ResponseWriter.Write (w : ResponseWriter) (s : GoString) : ResponseWriter :=
  let w1 := w.WriteHeader 200
  { w1 with body := w1.body ++ s }

/-! ## Metadata store interface -/

/-- Object record handed to the store. -/
structure MetaObject where
  Oid : GoString
  Size : Int
  deriving DecidableEq, Repr

/-- User record returned by the store. -/
structure MetaUser where
  Name : GoString
  deriving DecidableEq, Repr

/-- The operations `mgmt.go` calls on `a.metaStore`, over a store state `σ`.  Each returns
the new store state and the Go `error` (`none` is `nil`). -/
structure MetaStore (σ : Type) where
  PutMetaObject : σ → MetaObject → σ × Option GoError
  Objects : σ → σ × Except GoError (List MetaObject)
  Users : σ → σ × Except GoError (List MetaUser)
  AddUser : σ → GoString → GoString → σ × Option GoError
  DeleteUser : σ → GoString → σ × Option GoError

/-! ## Handler state -/

/-- Lines sent to the operational log, one constructor per call site. -/
inductive LogEntry where
  | method (name : String)
  | contentPath (path : GoString)
  | walkErr (path : GoString) (err : GoError)
  | putErr (path : GoString) (size : Int) (oid : GoString) (err : GoError)
  | templateNotFound (tmpl : String) (err : GoError)
  | request (status : Nat)
  deriving DecidableEq, Repr

/-- Everything a handler can change: the metadata store, the response, the log; and the
panic that stopped it, if any. -/
structure State (σ : Type) where
  store : σ
  w : ResponseWriter
  log : List LogEntry
  panic : Option GoPanic

/-- An `http.HandlerFunc`. -/
abbrev Handler (σ : Type) := Request → State σ → State σ

/-- The state in which the server calls a handler. -/
def State.init {σ : Type} (s : σ) : State σ := ⟨s, ResponseWriter.fresh, [], none⟩

/-- The call `logger.Log(kv{...})`. -/
def loggerLog {σ : Type} (e : LogEntry) (st : State σ) : State σ :=
  { st with log := st.log ++ [e] }

/-- Modelled from the spec: `writeStatus(w, r, status)` is defined outside `mgmt.go`; the
spec gives the status code it responds with (404, 401) and nothing about the body. -/
def writeStatus {σ : Type} (status : Nat) : Handler σ := fun _ st =>
  { st with w := st.w.WriteHeader status }

/-- Modelled from the spec: `logRequest(r, status)` is defined outside `mgmt.go`; it
records the request and its status in the operational log. -/
def logRequest {σ : Type} (status : Nat) : Handler σ := fun _ st =>
  loggerLog (.request status) st

/-! ## Authentication gate -/

/-- The value of the `WWW-Authenticate` challenge header. -/
def basicChallenge : GoString := "Basic realm=mgmt".toList

/-- The wrapper `basicAuth(h)` (mgmt.go lines 55-78). -/
def basicAuth {σ : Type} (cfg : Configuration) (h : Handler σ) : Handler σ := fun r st =>
  if cfg.AdminUser = [] ∨ cfg.AdminPass = [] then
    writeStatus 404 r st
  else
    match r.BasicAuth with
    | none =>
      writeStatus 401 r { st with w := st.w.HeaderSet "WWW-Authenticate" basicChallenge }
    | some (user, pass) =>
      if user ≠ cfg.AdminUser ∨ pass ≠ cfg.AdminPass then
        writeStatus 401 r { st with w := st.w.HeaderSet "WWW-Authenticate" basicChallenge }
      else
        let st1 := h r st
        match st1.panic with
        | some _ => st1
        | none => logRequest 200 r st1

/-- The function `authenticate(r)` (mgmt.go lines 190-206): `none` is the `nil` error. -/
def authenticate (cfg : Configuration) (r : Request) : Option GoError :=
  let err : GoError := "Forbidden"
  if cfg.AdminUser = [] ∨ cfg.AdminPass = [] then
    some err
  else
    match r.BasicAuth with
    | none => some err
    | some (user, pass) =>
      if user = cfg.AdminUser ∧ pass = cfg.AdminPass then none else some err

/-- A wrapped handler that counts its own invocations in the store state. -/
def countingHandler : Handler Nat := fun _ st => { st with store := st.store + 1 }

/-! ## Reconciliation walk -/

/-- The parts of `os.FileInfo` that the walk reads. -/
structure FileInfo where
  IsDir : Bool
  Size : Int
  deriving DecidableEq, Repr

/-- One call that `filepath.Walk(basePath, fn)` makes to `fn(path, info, err)`. -/
inductive WalkEntry where
  /-- A call with `err != nil`. -/
  | failed (path : GoString) (err : GoError)
  /-- A call with `err == nil`; `relPath` is what `filepath.Rel(basePath, path)` returns. -/
  | visited (path relPath : GoString) (info : FileInfo)
  deriving DecidableEq, Repr

/-- The callback that `refreshHandler` passes to `filepath.Walk` (mgmt.go lines 90-108).
It always returns `nil`, so only a panic ends the walk early. -/
def walkFn {σ : Type} (ms : MetaStore σ) (e : WalkEntry) (st : State σ) : State σ :=
  match e with
  | .failed path err => loggerLog (.walkErr path err) st
  | .visited path relPath info =>
    if !info.IsDir then
      match oidOfRelPath relPath with
      | .error p => { st with panic := some p }
      | .ok oid =>
        let metaObj : MetaObject := { Oid := oid, Size := info.Size }
        let res := ms.PutMetaObject st.store metaObj
        let st1 := { st with store := res.1 }
        match res.2 with
        | some err => loggerLog (.putErr path info.Size oid err) st1
        | none => st1
    else
      st

/-- The traversal `filepath.Walk` over the entries it visits, for a callback that never
returns an error: every entry is passed to the callback, unless the callback panics. -/
def Walk {σ : Type} (fn : WalkEntry → State σ → State σ) : List WalkEntry → State σ → State σ
  | [], st => st
  | e :: es, st =>
    let st1 := fn e st
    match st1.panic with
    | some _ => st1
    | none => Walk fn es st1

/-- The handler `refreshHandler` (mgmt.go lines 86-115); `tree` is the sequence of entries
that `filepath.Walk(Config.ContentPath, ·)` visits. -/
def refreshHandler {σ : Type} (cfg : Configuration) (ms : MetaStore σ) (tree : List WalkEntry) :
    Handler σ := fun _ st =>
  let st1 := loggerLog (.method "refreshHandler") st
  let st2 := loggerLog (.contentPath cfg.ContentPath) st1
  let st3 := Walk (walkFn ms) tree st2
  match st3.panic with
  | some _ => st3
  | none =>
    let st4 := { st3 with w := st3.w.WriteHeader 200 }
    { st4 with w := st4.w.Write "refreshed".toList }

/-! ## User handlers -/

/-- The call `http.Redirect(w, r, url, code)` for a request that is not a GET: the
`Location` header and the status. -/
def Redirect {σ : Type} (url : GoString) (code : Nat) (st : State σ) : State σ :=
  { st with w := (st.w.HeaderSet "Location" url).WriteHeader code }

/-- The handler `addUserHandler` (mgmt.go lines 141-155). -/
def addUserHandler {σ : Type} (ms : MetaStore σ) : Handler σ := fun r st =>
  let user := r.FormValue "name"
  let pass := r.FormValue "password"
  if user = [] ∨ pass = [] then
    { st with w := st.w.Write "Invalid username or password".toList }
  else
    let res := ms.AddUser st.store user pass
    let st1 := { st with store := res.1 }
    match res.2 with
    | some err => { st1 with w := st1.w.Write ("Error adding user: ".toList ++ err.toList) }
    | none => Redirect "/mgmt/users".toList 302 st1

/-- The handler `delUserHandler` (mgmt.go lines 157-170). -/
def delUserHandler {σ : Type} (ms : MetaStore σ) : Handler σ := fun r st =>
  let user := r.FormValue "name"
  if user = [] then
    { st with w := st.w.Write "Invalid username".toList }
  else
    let res := ms.DeleteUser st.store user
    let st1 := { st with store := res.1 }
    match res.2 with
    | some err => { st1 with w := st1.w.Write ("Error deleting user: ".toList ++ err.toList) }
    | none => Redirect "/mgmt/users".toList 302 st1

/-! ## Pages and static files -/

/-- The template data `pageData`. -/
structure PageData where
  Name : String
  Config : Option Configuration
  Users : List MetaUser
  Objects : List MetaObject

/-- The bundled resources and the template engine, which are libraries outside the
repository (`go.rice`, `html/template`). -/
structure Env where
  /-- Whether `rice.MustFindBox(name)` finds the box (it panics when it does not). -/
  findBox : String → Bool
  /-- The call `templateBox.String(name)`. -/
  templateString : String → Except GoError GoString
  /-- Parsing the two templates and `t.Execute(w, data)`: the writer afterwards and the
  error returned, or the panic of `template.Must`. -/
  execute : GoString → GoString → PageData → ResponseWriter →
    Except GoPanic (ResponseWriter × Option GoError)
  /-- The call `cssBox.Open(file)` followed by reading the file. -/
  cssOpen : GoString → Except GoError GoString

/-- The function `render` (mgmt.go lines 172-188): the state afterwards and the error. -/
def render {σ : Type} (env : Env) (tmpl : String) (data : PageData) (st : State σ) :
    State σ × Option GoError :=
  match env.templateString "body.tmpl" with
  | .error err => (st, some err)
  | .ok bodyString =>
    match env.templateString tmpl with
    | .error err => (loggerLog (.templateNotFound tmpl err) st, some err)
    | .ok contentString =>
      match env.execute bodyString contentString data st.w with
      | .error p => ({ st with panic := some p }, none)
      | .ok (w1, err) => ({ st with w := w1 }, err)

/-- Shared tail of `indexHandler`, `objectsHandler` and `usersHandler`: call `render` and
answer `writeStatus(w, r, 404)` when it returns an error. -/
def renderOr404 {σ : Type} (env : Env) (tmpl : String) (data : PageData) : Handler σ :=
  fun r st =>
    let res := render env tmpl data st
    match res.1.panic with
    | some _ => res.1
    | none =>
      match res.2 with
      | some _ => writeStatus 404 r res.1
      | none => res.1

/-- The handler `indexHandler` (mgmt.go lines 80-84). -/
def indexHandler {σ : Type} (cfg : Configuration) (env : Env) : Handler σ :=
  renderOr404 env "config.tmpl" { Name := "index", Config := some cfg, Users := [], Objects := [] }

/-- The handler `objectsHandler` (mgmt.go lines 117-127). -/
def objectsHandler {σ : Type} (env : Env) (ms : MetaStore σ) : Handler σ := fun r st =>
  let res := ms.Objects st.store
  let st1 := { st with store := res.1 }
  match res.2 with
  | .error err =>
    { st1 with w := st1.w.Write ("Error retrieving objects: ".toList ++ err.toList) }
  | .ok objects =>
    renderOr404 env "objects.tmpl"
      { Name := "objects", Config := none, Users := [], Objects := objects } r st1

/-- The handler `usersHandler` (mgmt.go lines 129-139). -/
def usersHandler {σ : Type} (env : Env) (ms : MetaStore σ) : Handler σ := fun r st =>
  let res := ms.Users st.store
  let st1 := { st with store := res.1 }
  match res.2 with
  | .error err =>
    { st1 with w := st1.w.Write ("Error retrieving users: ".toList ++ err.toList) }
  | .ok users =>
    renderOr404 env "users.tmpl"
      { Name := "users", Config := none, Users := users, Objects := [] } r st1

/-- The handler `cssHandler` (mgmt.go lines 41-53). -/
def cssHandler {σ : Type} (env : Env) : Handler σ := fun r st =>
  let file := (r.Vars.lookup "file").getD []
  match env.cssOpen file with
  | .error _ => writeStatus 404 r st
  | .ok content =>
    { st with w := (st.w.HeaderSet "Content-Type" "text/css".toList).Write content }

/-! ## Route table -/

/-- A route of the `mux.Router`: path template, allowed methods (empty: any), handler. -/
structure Route (σ : Type) where
  pattern : String
  methods : List String
  handler : Handler σ

/-- The router under construction, and the panic that stopped the construction, if any. -/
structure Router (σ : Type) where
  routes : List (Route σ)
  panic : Option GoPanic

/-- The calls `r.HandleFunc(pattern, h).Methods(methods...)`. -/
def Router.HandleFunc {σ : Type} (r : Router σ) (pattern : String) (h : Handler σ)
    (methods : List String) : Router σ :=
  { r with routes := r.routes ++ [⟨pattern, methods, h⟩] }

/-- The method `addMgmt` (mgmt.go lines 28-39). -/
def addMgmt {σ : Type} (cfg : Configuration) (env : Env) (ms : MetaStore σ)
    (tree : List WalkEntry) (r : Router σ) : Router σ :=
  let r1 := r.HandleFunc "/mgmt" (basicAuth cfg (indexHandler cfg env)) ["GET"]
  let r2 := r1.HandleFunc "/mgmt/refresh" (basicAuth cfg (refreshHandler cfg ms tree)) ["GET"]
  let r3 := r2.HandleFunc "/mgmt/objects" (basicAuth cfg (objectsHandler env ms)) ["GET"]
  let r4 := r3.HandleFunc "/mgmt/users" (basicAuth cfg (usersHandler env ms)) ["GET"]
  let r5 := r4.HandleFunc "/mgmt/add" (basicAuth cfg (addUserHandler ms)) ["POST"]
  let r6 := r5.HandleFunc "/mgmt/del" (basicAuth cfg (delUserHandler ms)) ["POST"]
  if !env.findBox "mgmt/css" then
    { r6 with panic := some (.library "MustFindBox: mgmt/css") }
  else if !env.findBox "mgmt/templates" then
    { r6 with panic := some (.library "MustFindBox: mgmt/templates") }
  else
    r6.HandleFunc "/mgmt/css/\x7bfile\x7d" (basicAuth cfg (cssHandler env)) []

/-! ## Stores used to observe the handlers -/

/-- A call received by a metadata store. -/
inductive StoreCall where
  | putMetaObject (m : MetaObject)
  | objects
  | users
  | addUser (user pass : GoString)
  | deleteUser (user : GoString)
  deriving DecidableEq, Repr

/-- A store that only records the calls it receives, in order; call number `n` (counted
from 0) reports an error when `fails n`. -/
def recordingStore (fails : Nat → Bool) : MetaStore (List StoreCall) where
  PutMetaObject s m :=
    (s ++ [.putMetaObject m], if fails s.length then some "store error" else none)
  Objects s := (s ++ [.objects], if fails s.length then .error "store error" else .ok [])
  Users s := (s ++ [.users], if fails s.length then .error "store error" else .ok [])
  AddUser s user pass :=
    (s ++ [.addUser user pass], if fails s.length then some "store error" else none)
  DeleteUser s user :=
    (s ++ [.deleteUser user], if fails s.length then some "store error" else none)

/-- The two collections of the in-memory store. -/
structure MemState where
  objects : List MetaObject
  users : List (GoString × GoString)
  deriving DecidableEq, Repr

/-- Modelled from the spec: `PutObject(id, size)` of the Metadata Store contract, which is
implemented outside `mgmt.go`: "upsert by id; last writer for a given id wins". -/
def upsert : List MetaObject → MetaObject → List MetaObject
  | [], m => [m]
  | x :: xs, m => if x.Oid = m.Oid then m :: xs else x :: upsert xs m

/-- The size recorded for an id, if any. -/
def lookupSize (s : List MetaObject) (k : GoString) : Option Int :=
  (s.find? (fun x => x.Oid = k)).map MetaObject.Size

/-- Modelled from the spec: an in-memory Metadata Store with the operation contract of the
spec (the store is implemented outside `mgmt.go`): `PutObject` upserts by id,
`ListObjects`/`ListUsers` return all records, `AddUser` fails with `DuplicateUser` when the
name exists, `DeleteUser` removes the record if present. -/
def memStore : MetaStore MemState where
  PutMetaObject s m := ({ s with objects := upsert s.objects m }, none)
  Objects s := (s, .ok s.objects)
  Users s := (s, .ok (s.users.map (fun u => ⟨u.1⟩)))
  AddUser s user pass :=
    if s.users.any (fun u => u.1 = user) then (s, some "DuplicateUser")
    else ({ s with users := s.users ++ [(user, pass)] }, none)
  DeleteUser s user := ({ s with users := s.users.filter (fun u => u.1 ≠ user) }, none)

/-! ## The walk as a sequence of visits -/

/-- An entry of a storage tree laid out in two shard levels: a visit error, a directory, or
a regular file at `s0/s1/rest`. -/
inductive Visit where
  | error (path : GoString) (err : GoError)
  | dir (path relPath : GoString) (size : Int)
  | file (s0 s1 rest : GoString) (size : Int)
  deriving DecidableEq, Repr

/-- The relative path `s0/s1/rest`. -/
def shardPath (s0 s1 rest : GoString) : GoString :=
  s0 ++ Separator :: (s1 ++ Separator :: rest)

/-- The callback arguments of a visit, for the storage root `basePath`. -/
def Visit.toEntry (basePath : GoString) : Visit → WalkEntry
  | .error path err => .failed path err
  | .dir path relPath size => .visited path relPath ⟨true, size⟩
  | .file s0 s1 rest size =>
    .visited (basePath ++ Separator :: shardPath s0 s1 rest) (shardPath s0 s1 rest) ⟨false, size⟩

/-- Both shard directories of a file visit have 2-byte names. -/
def Visit.twoByteShards : Visit → Prop
  | .file s0 s1 _ _ => s0.length = 2 ∧ s1.length = 2
  | _ => True

instance (v : Visit) : Decidable v.twoByteShards := by
  cases v <;> unfold Visit.twoByteShards <;> infer_instance

/-- The record that a visit is expected to produce: one per regular file, none otherwise. -/
def Visit.record : Visit → Option MetaObject
  | .file s0 s1 rest size => some ⟨s0 ++ s1 ++ rest, size⟩
  | _ => none

/-- The objects handed to `PutMetaObject` during a walk: one per non-directory entry visited
without error, up to the first entry whose oid expression panics. -/
def putsOf : List WalkEntry → List MetaObject
  | [] => []
  | .failed _ _ :: es => putsOf es
  | .visited _ relPath info :: es =>
    if info.IsDir then putsOf es
    else
      match oidOfRelPath relPath with
      | .ok oid => ⟨oid, info.Size⟩ :: putsOf es
      | .error _ => []

/-- Every non-directory entry visited without error has a relative path of at least 6
bytes. -/
def longPaths : List WalkEntry → Prop
  | [] => True
  | .failed _ _ :: es => longPaths es
  | .visited _ relPath info :: es => (info.IsDir = false → 6 ≤ relPath.length) ∧ longPaths es

/-- Folding `PutMetaObject` over a list of objects, errors ignored. -/
def putAll {σ : Type} (ms : MetaStore σ) (s : σ) (objs : List MetaObject) : σ :=
  objs.foldl (fun acc m => (ms.PutMetaObject acc m).1) s

/-! ## Identifier codec -/

/-- Modelled from the spec: `Encode` of the Identifier Codec, the layout function of the
content store, which is outside `mgmt.go`: "Exact scheme: `path = id[0:2] / id[2:4] / id[4:]`". -/
def Encode (id : GoString) : Except GoPanic GoString :=
  match slice id 0 2 with
  | .error p => .error p
  | .ok a =>
    match slice id 2 4 with
    | .error p => .error p
    | .ok b =>
      match slice id 4 id.length with
      | .error p => .error p
      | .ok c => .ok (a ++ Separator :: (b ++ Separator :: c))

/-- The name the spec gives to the oid expression of `refreshHandler`. -/
def Decode (relPath : GoString) : Except GoPanic GoString := oidOfRelPath relPath

/-! ## Example data -/

/-- A configuration with both admin values set. -/
def exampleConfig : Configuration :=
  ⟨"admin".toList, "secret".toList, "/data/lfs".toList⟩

/-- A request without credentials, form or route variables. -/
def plainRequest : Request := ⟨none, [], []⟩

/-- The tree of the spec's scenario, in the lexical order of `filepath.Walk`: the root, the
shard directories, and the files `12/34/56789a` (size 20) and `ab/cd/ef0123` (size 10). -/
def scenarioVisits : List Visit :=
  [ .dir "/data/lfs".toList ".".toList 4096,
    .dir "/data/lfs/12".toList "12".toList 4096,
    .dir "/data/lfs/12/34".toList "12/34".toList 4096,
    .file "12".toList "34".toList "56789a".toList 20,
    .dir "/data/lfs/ab".toList "ab".toList 4096,
    .dir "/data/lfs/ab/cd".toList "ab/cd".toList 4096,
    .file "ab".toList "cd".toList "ef0123".toList 10 ]

/-- A tree with an unreadable directory between two files. -/
def mixedVisits : List Visit :=
  [ .dir "/data/lfs".toList ".".toList 4096,
    .file "12".toList "34".toList "56789a".toList 20,
    .error "/data/lfs/zz".toList "permission denied",
    .file "ab".toList "cd".toList "ef0123".toList 10 ]

/-- A 64-character hexadecimal object id. -/
def exampleOid : GoString :=
  "4d7a214614ab2935c943f9e0ff69d22eadbb8f32b1258daaa5e2ca24d17e2393".toList

/-- A tree with a stray file `a` in the storage root, visited before a well-formed object. -/
def strayFileTree : List WalkEntry :=
  [ .visited "/data/lfs".toList ".".toList ⟨true, 4096⟩,
    .visited "/data/lfs/a".toList "a".toList ⟨false, 1⟩,
    .visited "/data/lfs/ab/cd/ef0123".toList "ab/cd/ef0123".toList ⟨false, 10⟩ ]

/-- A configuration whose admin username is not set. -/
def unconfiguredConfig : Configuration :=
  ⟨[], "secret".toList, "/data/lfs".toList⟩

/-- A request carrying the credentials `admin` / `secret`. -/
def adminRequest : Request := ⟨some ("admin".toList, "secret".toList), [], []⟩

/-- A request carrying the right username with a wrong password. -/
def wrongPassRequest : Request := ⟨some ("admin".toList, "guess".toList), [], []⟩

/-- A form submission with name `bob` and an empty password. -/
def emptyPassRequest : Request :=
  ⟨none, [("name", "bob".toList), ("password", [])], []⟩

/-- A form submission with name `bob` and password `x`. -/
def addBobRequest : Request :=
  ⟨none, [("name", "bob".toList), ("password", "x".toList)], []⟩

/-- A form submission without any field. -/
def emptyFormRequest : Request := ⟨none, [], []⟩

end Mgmt

/-! ## Lemmas -/

namespace Mgmt

theorem slice_ok (s : GoString) (lo hi : Nat) (h1 : lo ≤ hi) (h2 : hi ≤ s.length) :
    slice s lo hi = .ok ((s.drop lo).take (hi - lo)) := by
  unfold slice
  rw [if_pos ⟨h1, h2⟩]

theorem slice_error (s : GoString) (lo hi : Nat) (h : ¬ (lo ≤ hi ∧ hi ≤ s.length)) :
    slice s lo hi = .error (.sliceBounds lo hi s.length) := by
  unfold slice
  rw [if_neg h]

theorem oidOfRelPath_ok (p : GoString) (h : 6 ≤ p.length) :
    oidOfRelPath p = .ok (p.take 2 ++ (p.drop 3).take 2 ++ p.drop 6) := by
  unfold oidOfRelPath
  rw [slice_ok p 0 2 (by omega) (by omega), slice_ok p 3 5 (by omega) (by omega),
    slice_ok p 6 p.length h (le_refl _)]
  have h6 : (p.drop 6).take (p.length - 6) = p.drop 6 := by
    apply List.take_of_length_le
    simp
  simp [h6]

theorem oidOfRelPath_short (p : GoString) (h : p.length < 6) :
    ∃ e, oidOfRelPath p = .error e := by
  unfold oidOfRelPath
  by_cases h2 : 2 ≤ p.length
  · rw [slice_ok p 0 2 (by omega) h2]
    by_cases h5 : 5 ≤ p.length
    · rw [slice_ok p 3 5 (by omega) h5, slice_error p 6 p.length (by omega)]
      exact ⟨_, rfl⟩
    · rw [slice_error p 3 5 (by omega)]
      exact ⟨_, rfl⟩
  · rw [slice_error p 0 2 (by omega)]
    exact ⟨_, rfl⟩

theorem oidOfRelPath_shardPath (s0 s1 rest : GoString) (h0 : s0.length = 2)
    (h1 : s1.length = 2) : oidOfRelPath (shardPath s0 s1 rest) = .ok (s0 ++ s1 ++ rest) := by
  match s0, h0, s1, h1 with
  | [a, b], _, [c, d], _ =>
    rw [oidOfRelPath_ok _ (by simp [shardPath])]
    simp [shardPath]

theorem walkFn_dir {σ : Type} (ms : MetaStore σ) (path relPath : GoString) (info : FileInfo)
    (st : State σ) (hd : info.IsDir = true) :
    walkFn ms (.visited path relPath info) st = st := by
  simp [walkFn, hd]

theorem walkFn_error {σ : Type} (ms : MetaStore σ) (path relPath : GoString) (info : FileInfo)
    (st : State σ) (hd : info.IsDir = false) (p : GoPanic)
    (ho : oidOfRelPath relPath = .error p) :
    walkFn ms (.visited path relPath info) st = { st with panic := some p } := by
  simp [walkFn, hd, ho]

theorem walkFn_put {σ : Type} (ms : MetaStore σ) (path relPath : GoString) (info : FileInfo)
    (st : State σ) (hd : info.IsDir = false) (oid : GoString)
    (ho : oidOfRelPath relPath = .ok oid) :
    (walkFn ms (.visited path relPath info) st).store
        = (ms.PutMetaObject st.store ⟨oid, info.Size⟩).1 ∧
    (walkFn ms (.visited path relPath info) st).w = st.w ∧
    (walkFn ms (.visited path relPath info) st).panic = st.panic := by
  simp only [walkFn, hd, ho, Bool.not_false, if_true]
  cases (ms.PutMetaObject st.store ⟨oid, info.Size⟩).2 <;> exact ⟨rfl, rfl, rfl⟩

theorem walkFn_w {σ : Type} (ms : MetaStore σ) (e : WalkEntry) (st : State σ) :
    (walkFn ms e st).w = st.w := by
  cases e with
  | failed path err => rfl
  | visited path relPath info =>
    cases hd : info.IsDir with
    | true => rw [walkFn_dir ms path relPath info st hd]
    | false =>
      cases ho : oidOfRelPath relPath with
      | error p => rw [walkFn_error ms path relPath info st hd p ho]
      | ok oid => exact (walkFn_put ms path relPath info st hd oid ho).2.1

theorem Walk_cons_none {σ : Type} (fn : WalkEntry → State σ → State σ) (e : WalkEntry)
    (es : List WalkEntry) (st : State σ) (h : (fn e st).panic = none) :
    Walk fn (e :: es) st = Walk fn es (fn e st) := by
  simp [Walk, h]

theorem Walk_cons_some {σ : Type} (fn : WalkEntry → State σ → State σ) (e : WalkEntry)
    (es : List WalkEntry) (st : State σ) (p : GoPanic) (h : (fn e st).panic = some p) :
    Walk fn (e :: es) st = fn e st := by
  simp [Walk, h]

theorem Walk_w {σ : Type} (ms : MetaStore σ) (tree : List WalkEntry) (st : State σ) :
    (Walk (walkFn ms) tree st).w = st.w := by
  induction tree generalizing st with
  | nil => rfl
  | cons e es ih =>
    cases hp : (walkFn ms e st).panic with
    | some p => rw [Walk_cons_some _ e es st p hp, walkFn_w]
    | none => rw [Walk_cons_none _ e es st hp, ih, walkFn_w]

theorem Walk_store {σ : Type} (ms : MetaStore σ) (tree : List WalkEntry) (st : State σ)
    (hst : st.panic = none) :
    (Walk (walkFn ms) tree st).store = putAll ms st.store (putsOf tree) := by
  induction tree generalizing st with
  | nil => rfl
  | cons e es ih =>
    cases e with
    | failed path err =>
      have h1 : (walkFn ms (.failed path err) st).panic = none := hst
      rw [Walk_cons_none _ _ es st h1, ih _ h1]
      rfl
    | visited path relPath info =>
      cases hd : info.IsDir with
      | true =>
        have h0 := walkFn_dir ms path relPath info st hd
        rw [Walk_cons_none _ _ es st (by rw [h0]; exact hst), h0, ih st hst]
        simp [putsOf, hd]
      | false =>
        cases ho : oidOfRelPath relPath with
        | error p =>
          have h0 := walkFn_error ms path relPath info st hd p ho
          rw [Walk_cons_some _ _ es st p (by rw [h0]), h0]
          simp [putsOf, hd, ho, putAll]
        | ok oid =>
          obtain ⟨h1, _, h3⟩ := walkFn_put ms path relPath info st hd oid ho
          rw [Walk_cons_none _ _ es st (by rw [h3]; exact hst), ih _ (by rw [h3]; exact hst), h1]
          simp [putsOf, hd, ho, putAll]

theorem walkFn_panic {σ : Type} (ms : MetaStore σ) (path relPath : GoString) (info : FileInfo)
    (st : State σ) (hst : st.panic = none) (h : info.IsDir = false → 6 ≤ relPath.length) :
    (walkFn ms (.visited path relPath info) st).panic = none := by
  cases hd : info.IsDir with
  | true => rw [walkFn_dir ms path relPath info st hd]; exact hst
  | false =>
    rw [(walkFn_put ms path relPath info st hd _ (oidOfRelPath_ok relPath (h hd))).2.2]
    exact hst

theorem Walk_panic {σ : Type} (ms : MetaStore σ) (tree : List WalkEntry) (st : State σ)
    (hst : st.panic = none) (h : longPaths tree) :
    (Walk (walkFn ms) tree st).panic = none := by
  induction tree generalizing st with
  | nil => exact hst
  | cons e es ih =>
    cases e with
    | failed path err =>
      have h1 : (walkFn ms (.failed path err) st).panic = none := hst
      rw [Walk_cons_none _ _ es st h1]
      exact ih _ h1 h
    | visited path relPath info =>
      have h1 := walkFn_panic ms path relPath info st hst h.1
      rw [Walk_cons_none _ _ es st h1]
      exact ih _ h1 h.2

theorem refreshHandler_store {σ : Type} (cfg : Configuration) (ms : MetaStore σ)
    (tree : List WalkEntry) (r : Request) (st : State σ) (hst : st.panic = none) :
    (refreshHandler cfg ms tree r st).store = putAll ms st.store (putsOf tree) := by
  have h := Walk_store ms tree
    (loggerLog (.contentPath cfg.ContentPath) (loggerLog (.method "refreshHandler") st)) hst
  unfold refreshHandler
  simp only
  split
  · exact h
  · exact h

theorem refreshHandler_response {σ : Type} (cfg : Configuration) (ms : MetaStore σ)
    (tree : List WalkEntry) (r : Request) (st : State σ) (hst : st.panic = none)
    (h : longPaths tree) :
    (refreshHandler cfg ms tree r st).w = (st.w.WriteHeader 200).Write "refreshed".toList ∧
    (refreshHandler cfg ms tree r st).panic = none := by
  have hp := Walk_panic ms tree
    (loggerLog (.contentPath cfg.ContentPath) (loggerLog (.method "refreshHandler") st)) hst h
  have hw := Walk_w ms tree
    (loggerLog (.contentPath cfg.ContentPath) (loggerLog (.method "refreshHandler") st))
  unfold refreshHandler
  simp only [hp, hw]
  exact ⟨rfl, trivial⟩

theorem putAll_recording (fails : Nat → Bool) (objs : List MetaObject) (s : List StoreCall) :
    putAll (recordingStore fails) s objs = s ++ objs.map StoreCall.putMetaObject := by
  induction objs generalizing s with
  | nil => simp [putAll]
  | cons m ms ih =>
    have h := ih (s ++ [.putMetaObject m])
    simp only [putAll, List.foldl_cons] at h ⊢
    rw [show ((recordingStore fails).PutMetaObject s m).1 = s ++ [.putMetaObject m] from rfl, h]
    simp

theorem putsOf_visits (basePath : GoString) (visits : List Visit)
    (h : ∀ v ∈ visits, v.twoByteShards) :
    putsOf (visits.map (Visit.toEntry basePath)) = visits.filterMap Visit.record := by
  induction visits with
  | nil => rfl
  | cons v vs ih =>
    have ih1 := ih (fun x hx => h x (List.mem_cons_of_mem _ hx))
    have hv := h v (List.mem_cons_self _ _)
    cases v with
    | error path err => simpa [Visit.toEntry, putsOf, Visit.record] using ih1
    | dir path relPath size => simpa [Visit.toEntry, putsOf, Visit.record] using ih1
    | file s0 s1 rest size =>
      simp only [List.map_cons, Visit.toEntry, putsOf, Visit.record, List.filterMap_cons]
      rw [oidOfRelPath_shardPath s0 s1 rest hv.1 hv.2]
      simp [ih1]

theorem Encode_ok (id : GoString) (h : 4 ≤ id.length) :
    Encode id = .ok (shardPath (id.take 2) ((id.drop 2).take 2) (id.drop 4)) := by
  unfold Encode
  rw [slice_ok id 0 2 (by omega) (by omega), slice_ok id 2 4 (by omega) (by omega),
    slice_ok id 4 id.length h (le_refl _)]
  have h4 : (id.drop 4).take (id.length - 4) = id.drop 4 := by
    apply List.take_of_length_le
    simp
  simp [h4, shardPath]

theorem take_drop_four (id : GoString) :
    id.take 2 ++ (id.drop 2).take 2 ++ id.drop 4 = id := by
  have h : id.drop 4 = (id.drop 2).drop 2 := by simp
  rw [h, List.append_assoc, List.take_append_drop, List.take_append_drop]

theorem putAll_cons {σ : Type} (ms : MetaStore σ) (s : σ) (m : MetaObject)
    (objs : List MetaObject) :
    putAll ms s (m :: objs) = putAll ms (ms.PutMetaObject s m).1 objs := rfl

/-- Under the upsert law, ids that are not put keep their record. -/
theorem putAll_get_other {σ : Type} (ms : MetaStore σ) (get : σ → GoString → Option Int)
    (hup : ∀ s m k, get (ms.PutMetaObject s m).1 k = if k = m.Oid then some m.Size else get s k)
    (objs : List MetaObject) (s : σ) (k : GoString) (hk : k ∉ objs.map MetaObject.Oid) :
    get (putAll ms s objs) k = get s k := by
  induction objs generalizing s with
  | nil => rfl
  | cons m rest ih =>
    simp only [List.map_cons, List.mem_cons, not_or] at hk
    rw [putAll_cons, ih _ hk.2, hup, if_neg hk.1]

/-- Under the upsert law, the records after a sequence of puts depend on the initial store
only through the ids that are not put. -/
theorem putAll_get_congr {σ : Type} (ms : MetaStore σ) (get : σ → GoString → Option Int)
    (hup : ∀ s m k, get (ms.PutMetaObject s m).1 k = if k = m.Oid then some m.Size else get s k)
    (objs : List MetaObject) (s t : σ)
    (hst : ∀ k, k ∉ objs.map MetaObject.Oid → get s k = get t k) (k : GoString) :
    get (putAll ms s objs) k = get (putAll ms t objs) k := by
  induction objs generalizing s t with
  | nil => exact hst k (by simp)
  | cons m rest ih =>
    rw [putAll_cons, putAll_cons]
    apply ih
    intro j hj
    rw [hup, hup]
    by_cases hjm : j = m.Oid
    · simp [hjm]
    · rw [if_neg hjm, if_neg hjm]
      apply hst
      simp only [List.map_cons, List.mem_cons, not_or]
      exact ⟨hjm, hj⟩

theorem putAll_idempotent {σ : Type} (ms : MetaStore σ) (get : σ → GoString → Option Int)
    (hup : ∀ s m k, get (ms.PutMetaObject s m).1 k = if k = m.Oid then some m.Size else get s k)
    (objs : List MetaObject) (s : σ) (k : GoString) :
    get (putAll ms (putAll ms s objs) objs) k = get (putAll ms s objs) k :=
  putAll_get_congr ms get hup objs (putAll ms s objs) s
    (fun j hj => putAll_get_other ms get hup objs s j hj) k

theorem lookupSize_upsert (s : List MetaObject) (m : MetaObject) (k : GoString) :
    lookupSize (upsert s m) k = if k = m.Oid then some m.Size else lookupSize s k := by
  induction s with
  | nil =>
    by_cases h : k = m.Oid
    · simp [upsert, lookupSize, h]
    · have h2 : ¬ m.Oid = k := fun e => h e.symm
      simp [upsert, lookupSize, h, h2]
  | cons x xs ih =>
    unfold upsert
    by_cases hx : x.Oid = m.Oid
    · rw [if_pos hx]
      by_cases h : k = m.Oid
      · simp [lookupSize, h]
      · have h2 : ¬ m.Oid = k := fun e => h e.symm
        have h3 : ¬ x.Oid = k := fun e => h (e.symm.trans hx)
        simp [lookupSize, h, h2, h3]
    · rw [if_neg hx]
      by_cases hxk : x.Oid = k
      · have h : ¬ k = m.Oid := fun e => hx (hxk.trans e)
        simp [lookupSize, hxk, h]
      · have ih2 := ih
        simp only [lookupSize] at ih2 ⊢
        simp only [List.find?_cons, hxk, decide_False]
        exact ih2

theorem memStore_upsert_law (s : MemState) (m : MetaObject) (k : GoString) :
    lookupSize (memStore.PutMetaObject s m).1.objects k
      = if k = m.Oid then some m.Size else lookupSize s.objects k :=
  lookupSize_upsert s.objects m k

theorem basicAuth_of_unconfigured {σ : Type} (cfg : Configuration)
    (hcfg : cfg.AdminUser = [] ∨ cfg.AdminPass = []) (h : Handler σ) (r : Request)
    (st : State σ) : basicAuth cfg h r st = writeStatus 404 r st := by
  unfold basicAuth
  rw [if_pos hcfg]

theorem basicAuth_of_mismatch {σ : Type} (cfg : Configuration) (hu : cfg.AdminUser ≠ [])
    (hp : cfg.AdminPass ≠ []) (h : Handler σ) (r : Request) (st : State σ)
    (hr : r.BasicAuth ≠ some (cfg.AdminUser, cfg.AdminPass)) :
    basicAuth cfg h r st
      = writeStatus 401 r { st with w := st.w.HeaderSet "WWW-Authenticate" basicChallenge } := by
  unfold basicAuth
  rw [if_neg (by simp [hu, hp])]
  cases hb : r.BasicAuth with
  | none => rfl
  | some up =>
    obtain ⟨user, pass⟩ := up
    have hne : user ≠ cfg.AdminUser ∨ pass ≠ cfg.AdminPass := by
      by_contra hc
      simp only [not_or, not_not] at hc
      exact hr (by rw [hb, hc.1, hc.2])
    simp only
    rw [if_pos hne]

theorem basicAuth_of_match {σ : Type} (cfg : Configuration) (hu : cfg.AdminUser ≠ [])
    (hp : cfg.AdminPass ≠ []) (h : Handler σ) (r : Request) (st : State σ)
    (hr : r.BasicAuth = some (cfg.AdminUser, cfg.AdminPass)) :
    basicAuth cfg h r st
      = match (h r st).panic with
        | some _ => h r st
        | none => logRequest 200 r (h r st) := by
  unfold basicAuth
  rw [if_neg (by simp [hu, hp]), hr]
  simp

theorem mismatch_of_cases (cfg : Configuration) (r : Request)
    (hr : r.BasicAuth = none ∨
      ∃ user pass, r.BasicAuth = some (user, pass) ∧
        (user ≠ cfg.AdminUser ∨ pass ≠ cfg.AdminPass)) :
    r.BasicAuth ≠ some (cfg.AdminUser, cfg.AdminPass) := by
  intro he
  rcases hr with hn | ⟨user, pass, hs, hne⟩
  · rw [hn] at he
    cases he
  · rw [hs] at he
    cases he
    rcases hne with h | h <;> exact h rfl

theorem addMgmt_routes {σ : Type} (cfg : Configuration) (env : Env) (ms : MetaStore σ)
    (tree : List WalkEntry) (r0 : Router σ) (route : Route σ)
    (hmem : route ∈ (addMgmt cfg env ms tree r0).routes) :
    route ∈ r0.routes ∨ ∃ h, route.handler = basicAuth cfg h := by
  unfold addMgmt at hmem
  simp only [Router.HandleFunc] at hmem
  split at hmem
  · simp only [List.append_assoc, List.mem_append, List.mem_singleton] at hmem
    rcases hmem with h | h | h | h | h | h | h
    · exact Or.inl h
    all_goals exact Or.inr ⟨_, by rw [h]⟩
  · split at hmem
    · simp only [List.append_assoc, List.mem_append, List.mem_singleton] at hmem
      rcases hmem with h | h | h | h | h | h | h
      · exact Or.inl h
      all_goals exact Or.inr ⟨_, by rw [h]⟩
    · simp only [List.append_assoc, List.mem_append, List.mem_singleton] at hmem
      rcases hmem with h | h | h | h | h | h | h | h
      · exact Or.inl h
      all_goals exact Or.inr ⟨_, by rw [h]⟩

theorem addMgmt_css_route {σ : Type} (cfg : Configuration) (env : Env) (ms : MetaStore σ)
    (tree : List WalkEntry) (r0 : Router σ) (hcss : env.findBox "mgmt/css" = true)
    (htmpl : env.findBox "mgmt/templates" = true) :
    (⟨"/mgmt/css/\x7bfile\x7d", [], basicAuth cfg (cssHandler env)⟩ : Route σ)
      ∈ (addMgmt cfg env ms tree r0).routes := by
  unfold addMgmt
  simp [Router.HandleFunc, hcss, htmpl]

end Mgmt

/-! ## Claims -/

namespace Mgmt

/-- C1: over a walk of visit errors, directories and regular files at `s0/s1/rest` with
2-byte shard directories, and for every pattern of `PutMetaObject` failures, the calls that
`refreshHandler` makes on the store are exactly one `PutMetaObject` per regular file, in
visit order, with `Oid = s0 + s1 + rest` and the file's size, and nothing else; and on the
scenario tree an empty upsert store ends with exactly the records `123456789a`/20 and
`abcdef0123`/10. -/
theorem refreshHandler_puts_one_per_file (cfg : Configuration) (visits : List Visit)
    (hshard : ∀ v ∈ visits, v.twoByteShards) (fails : Nat → Bool) (r : Request)
    (st : State (List StoreCall)) (hst : st.panic = none) :
    (refreshHandler cfg (recordingStore fails) (visits.map (Visit.toEntry cfg.ContentPath))
        r st).store
      = st.store ++ (visits.filterMap Visit.record).map StoreCall.putMetaObject ∧
    (refreshHandler cfg memStore (scenarioVisits.map (Visit.toEntry cfg.ContentPath))
        r (State.init ⟨[], []⟩)).store.objects
      = [⟨"123456789a".toList, 20⟩, ⟨"abcdef0123".toList, 10⟩] := by
  constructor
  · rw [refreshHandler_store _ _ _ _ _ hst, putsOf_visits _ _ hshard, putAll_recording]
  · rw [refreshHandler_store _ _ _ _ _ rfl, putsOf_visits _ _ (by decide)]
    decide

/-- Witness for C1: a walk with an unreadable directory between two files, the first
`PutMetaObject` call failing. -/
theorem refreshHandler_puts_one_per_file_witness :
    (∀ v ∈ mixedVisits, v.twoByteShards) ∧
    (refreshHandler exampleConfig (recordingStore (fun n => n == 0))
        (mixedVisits.map (Visit.toEntry exampleConfig.ContentPath))
        plainRequest (State.init [])).store
      = [.putMetaObject ⟨"123456789a".toList, 20⟩, .putMetaObject ⟨"abcdef0123".toList, 10⟩] :=
  ⟨by decide,
   (refreshHandler_puts_one_per_file exampleConfig mixedVisits (by decide)
      (fun n => n == 0) plainRequest (State.init []) rfl).1⟩

/-- C2: for every id of at least 4 bytes (in particular every 64-character hexadecimal id),
`Encode` yields the path `id[0:2]/id[2:4]/id[4:]`, `Decode (Encode id) = id`, and for the
encoded path `P`, `Encode (Decode P) = P`. -/
theorem decode_encode_round_trip (id : GoString) (h : 4 ≤ id.length) :
    Encode id = .ok (shardPath (id.take 2) ((id.drop 2).take 2) (id.drop 4)) ∧
    (Encode id).bind Decode = .ok id ∧
    ∀ P, Encode id = .ok P → (Decode P).bind Encode = .ok P := by
  have he := Encode_ok id h
  have hd : Decode (shardPath (id.take 2) ((id.drop 2).take 2) (id.drop 4)) = .ok id := by
    unfold Decode
    rw [oidOfRelPath_shardPath _ _ _ (by simp; omega) (by simp; omega), take_drop_four]
  refine ⟨he, ?_, ?_⟩
  · rw [he]
    exact hd
  · intro P hP
    rw [he] at hP
    cases hP
    rw [hd]
    exact he

/-- Witness for C2: a 64-character hexadecimal id. -/
theorem decode_encode_round_trip_witness :
    exampleOid.length = 64 ∧ (Encode exampleOid).bind Decode = .ok exampleOid :=
  ⟨by decide, (decode_encode_round_trip exampleOid (by decide)).2.1⟩

/-- C3, as stated, fails: with a 3-byte first shard directory the oid expression does not
return `seg0 + seg1 + seg2`, and with 1-byte shard directories it panics. -/
theorem oidOfRelPath_other_shard_lengths :
    ("abc".toList ≠ [] ∧ Separator ∉ "abc".toList ∧ "de".toList ≠ [] ∧
      Separator ∉ "de".toList) ∧
    oidOfRelPath (shardPath "abc".toList "de".toList "f0123".toList)
      = .ok "ab/d/f0123".toList ∧
    oidOfRelPath (shardPath "abc".toList "de".toList "f0123".toList)
      ≠ .ok ("abc".toList ++ "de".toList ++ "f0123".toList) ∧
    oidOfRelPath (shardPath "a".toList "b".toList "c".toList) = .error (.sliceBounds 6 5 5) := by
  decide

/-- C3, amended: for a relative path `seg0/seg1/seg2` whose two shard directory names are
2 bytes long each, the oid expression returns `seg0 + seg1 + seg2`. -/
theorem oidOfRelPath_two_byte_shards (seg0 seg1 seg2 : GoString) (h0 : seg0.length = 2)
    (h1 : seg1.length = 2) :
    oidOfRelPath (seg0 ++ "/".toList ++ seg1 ++ "/".toList ++ seg2)
      = .ok (seg0 ++ seg1 ++ seg2) := by
  have h := oidOfRelPath_shardPath seg0 seg1 seg2 h0 h1
  simpa [shardPath, Separator] using h

/-- Witness for C3 (amended): the path `ab/cd/ef0123`. -/
theorem oidOfRelPath_two_byte_shards_witness :
    oidOfRelPath "ab/cd/ef0123".toList = .ok "abcdef0123".toList :=
  oidOfRelPath_two_byte_shards "ab".toList "cd".toList "ef0123".toList (by decide) (by decide)

/-- C4, as stated, fails: a file name of 8 bytes directly under the root has no separator,
yet the oid expression returns an id and `PutMetaObject` is called with it; and for the
short paths `a` and `ab/c` the expression panics. -/
theorem oidOfRelPath_reports_no_malformed_path :
    separatorCount "abcdefgh".toList < 2 ∧
    oidOfRelPath "abcdefgh".toList = .ok "abdegh".toList ∧
    (refreshHandler exampleConfig (recordingStore (fun _ => false))
        [.visited "/data/lfs/abcdefgh".toList "abcdefgh".toList ⟨false, 7⟩]
        plainRequest (State.init [])).store = [.putMetaObject ⟨"abdegh".toList, 7⟩] ∧
    separatorCount "a".toList < 2 ∧
    oidOfRelPath "a".toList = .error (.sliceBounds 0 2 1) ∧
    separatorCount "ab/c".toList < 2 ∧
    oidOfRelPath "ab/c".toList = .error (.sliceBounds 3 5 4) := by
  decide

/-- C4, amended: for a regular file whose relative path has fewer than two separators and is
at least 6 bytes long, the oid expression returns the id
`relPath[0:2] + relPath[3:5] + relPath[6:]` and `refreshHandler` makes exactly one
`PutMetaObject` call for the entry, with that id and the file's size. -/
theorem refreshHandler_unsharded_long_path (cfg : Configuration) (fails : Nat → Bool)
    (path relPath : GoString) (size : Int) (r : Request) (st : State (List StoreCall))
    (hst : st.panic = none) (_hsep : separatorCount relPath < 2) (hlen : 6 ≤ relPath.length) :
    oidOfRelPath relPath
      = .ok (relPath.take 2 ++ (relPath.drop 3).take 2 ++ relPath.drop 6) ∧
    (refreshHandler cfg (recordingStore fails) [.visited path relPath ⟨false, size⟩]
        r st).store
      = st.store ++
        [.putMetaObject ⟨relPath.take 2 ++ (relPath.drop 3).take 2 ++ relPath.drop 6, size⟩] := by
  have ho := oidOfRelPath_ok relPath hlen
  refine ⟨ho, ?_⟩
  rw [refreshHandler_store _ _ _ _ _ hst, putAll_recording]
  simp [putsOf, ho]

/-- Witness for C4 (amended): the file `abcdefgh` directly under the root. -/
theorem refreshHandler_unsharded_long_path_witness :
    (refreshHandler exampleConfig (recordingStore (fun _ => true))
        [.visited "/data/lfs/abcdefgh".toList "abcdefgh".toList ⟨false, 7⟩]
        plainRequest (State.init [])).store
      = [] ++ [.putMetaObject ⟨"abcdefgh".toList.take 2 ++ ("abcdefgh".toList.drop 3).take 2
          ++ "abcdefgh".toList.drop 6, 7⟩] :=
  (refreshHandler_unsharded_long_path exampleConfig (fun _ => true)
    "/data/lfs/abcdefgh".toList "abcdefgh".toList 7 plainRequest (State.init []) rfl
    (by decide) (by decide)).2

/-- C5: when `PutMetaObject` is an upsert by `Oid` (after a put the store holds the put size
for that id and its previous record for every other id), a second run of `refreshHandler`
over the same tree leaves every id with the record it had after the first run. -/
theorem refreshHandler_idempotent {σ : Type} (cfg : Configuration) (ms : MetaStore σ)
    (get : σ → GoString → Option Int)
    (hup : ∀ s m k, get (ms.PutMetaObject s m).1 k = if k = m.Oid then some m.Size else get s k)
    (tree : List WalkEntry) (r1 r2 : Request) (st1 st2 : State σ)
    (h1 : st1.panic = none) (h2 : st2.panic = none)
    (hstore : st2.store = (refreshHandler cfg ms tree r1 st1).store) (k : GoString) :
    get (refreshHandler cfg ms tree r2 st2).store k
      = get (refreshHandler cfg ms tree r1 st1).store k := by
  rw [refreshHandler_store _ _ _ _ _ h2, hstore, refreshHandler_store _ _ _ _ _ h1]
  exact putAll_idempotent ms get hup (putsOf tree) st1.store k

/-- Witness for C5: the scenario tree, run twice on the in-memory store that already holds a
stale record for `abcdef0123`. -/
theorem refreshHandler_idempotent_witness :
    lookupSize (refreshHandler exampleConfig memStore
        (scenarioVisits.map (Visit.toEntry exampleConfig.ContentPath)) plainRequest
        (State.init (refreshHandler exampleConfig memStore
          (scenarioVisits.map (Visit.toEntry exampleConfig.ContentPath)) plainRequest
          (State.init ⟨[⟨"abcdef0123".toList, 99⟩], []⟩)).store)).store.objects
        "abcdef0123".toList
      = lookupSize (refreshHandler exampleConfig memStore
          (scenarioVisits.map (Visit.toEntry exampleConfig.ContentPath)) plainRequest
          (State.init ⟨[⟨"abcdef0123".toList, 99⟩], []⟩)).store.objects
        "abcdef0123".toList :=
  refreshHandler_idempotent exampleConfig memStore (fun s k => lookupSize s.objects k)
    memStore_upsert_law (scenarioVisits.map (Visit.toEntry exampleConfig.ContentPath))
    plainRequest plainRequest (State.init ⟨[⟨"abcdef0123".toList, 99⟩], []⟩) _ rfl rfl rfl
    "abcdef0123".toList

/-- C6 fails on a stray short file: with a regular file `a` in the storage root the walk
stops with a slice-bounds panic, no status and no body are written, and the well-formed
object visited after it is not recorded. -/
theorem refreshHandler_stray_file_panics :
    (refreshHandler exampleConfig memStore strayFileTree plainRequest
        (State.init ⟨[], []⟩)).panic = some (.sliceBounds 0 2 1) ∧
    (refreshHandler exampleConfig memStore strayFileTree plainRequest
        (State.init ⟨[], []⟩)).w.status = none ∧
    (refreshHandler exampleConfig memStore strayFileTree plainRequest
        (State.init ⟨[], []⟩)).w.body = [] ∧
    (refreshHandler exampleConfig memStore strayFileTree plainRequest
        (State.init ⟨[], []⟩)).store.objects = [] ∧
    (basicAuth exampleConfig (refreshHandler exampleConfig memStore strayFileTree)
        ⟨some ("admin".toList, "secret".toList), [], []⟩ (State.init ⟨[], []⟩)).w.status
      = none := by
  decide

/-- C7: when the admin username or the admin password is empty, the handler made by
`basicAuth` answers every request with `writeStatus 404` whatever the wrapped handler is
(status 404 on a new response, store untouched, a counting wrapped handler never run); and
every route that `addMgmt` registers has a handler of the form `basicAuth h`, the route
`/mgmt/css/{file}` included, so each of them answers 404. -/
theorem basicAuth_unconfigured_hides_mgmt (cfg : Configuration)
    (hcfg : cfg.AdminUser = [] ∨ cfg.AdminPass = []) :
    (∀ (σ : Type) (h : Handler σ) (r : Request) (st : State σ),
      basicAuth cfg h r st = writeStatus 404 r st) ∧
    (∀ (σ : Type) (h : Handler σ) (r : Request) (s : σ),
      (basicAuth cfg h r (State.init s)).w.status = some 404 ∧
      (basicAuth cfg h r (State.init s)).store = s) ∧
    (∀ (r : Request) (st : State Nat), (basicAuth cfg countingHandler r st).store = st.store) ∧
    (∀ (σ : Type) (env : Env) (ms : MetaStore σ) (tree : List WalkEntry) (r0 : Router σ)
        (route : Route σ), route ∈ (addMgmt cfg env ms tree r0).routes →
      route ∈ r0.routes ∨ ∃ h, route.handler = basicAuth cfg h) ∧
    (∀ (σ : Type) (env : Env) (ms : MetaStore σ) (tree : List WalkEntry) (r0 : Router σ),
      env.findBox "mgmt/css" = true → env.findBox "mgmt/templates" = true →
      (⟨"/mgmt/css/\x7bfile\x7d", [], basicAuth cfg (cssHandler env)⟩ : Route σ)
        ∈ (addMgmt cfg env ms tree r0).routes) ∧
    (∀ (σ : Type) (env : Env) (ms : MetaStore σ) (tree : List WalkEntry) (route : Route σ)
        (r : Request) (s : σ), route ∈ (addMgmt cfg env ms tree ⟨[], none⟩).routes →
      (route.handler r (State.init s)).w.status = some 404 ∧
      (route.handler r (State.init s)).store = s) := by
  refine ⟨?_, ?_, ?_, ?_, ?_, ?_⟩
  · intro σ h r st
    exact basicAuth_of_unconfigured cfg hcfg h r st
  · intro σ h r s
    rw [basicAuth_of_unconfigured cfg hcfg h r]
    exact ⟨rfl, rfl⟩
  · intro r st
    rw [basicAuth_of_unconfigured cfg hcfg]
    rfl
  · intro σ env ms tree r0 route hmem
    exact addMgmt_routes cfg env ms tree r0 route hmem
  · intro σ env ms tree r0 hcss htmpl
    exact addMgmt_css_route cfg env ms tree r0 hcss htmpl
  · intro σ env ms tree route r s hmem
    rcases addMgmt_routes cfg env ms tree ⟨[], none⟩ route hmem with h | ⟨h, hh⟩
    · cases h
    · rw [hh, basicAuth_of_unconfigured cfg hcfg h r]
      exact ⟨rfl, rfl⟩

/-- Witness for C7: no admin username configured, a request with credentials. -/
theorem basicAuth_unconfigured_hides_mgmt_witness :
    (unconfiguredConfig.AdminUser = [] ∨ unconfiguredConfig.AdminPass = []) ∧
    (basicAuth unconfiguredConfig countingHandler adminRequest (State.init 0)).w.status
      = some 404 ∧
    (basicAuth unconfiguredConfig countingHandler adminRequest (State.init 0)).store = 0 :=
  ⟨Or.inl rfl,
   (basicAuth_unconfigured_hides_mgmt unconfiguredConfig (Or.inl rfl)).2.1 Nat countingHandler
     adminRequest 0⟩

/-- C8: when both admin values are non-empty, a request without Basic credentials or with
a username or password different from the configured ones is answered by `writeStatus 401`
after the header `WWW-Authenticate: Basic realm=mgmt` is set, whatever the wrapped handler
is (status 401 on a new response, store untouched); a request with the configured username
and password runs the wrapped handler, once, on the incoming state; and a counting wrapped
handler is run exactly when the credentials are the configured ones. -/
theorem basicAuth_configured_gate (cfg : Configuration) (hu : cfg.AdminUser ≠ [])
    (hp : cfg.AdminPass ≠ []) (r : Request) :
    ((r.BasicAuth = none ∨
        ∃ user pass, r.BasicAuth = some (user, pass) ∧
          (user ≠ cfg.AdminUser ∨ pass ≠ cfg.AdminPass)) →
      (∀ (σ : Type) (h : Handler σ) (st : State σ),
        basicAuth cfg h r st
          = writeStatus 401 r
              { st with w := st.w.HeaderSet "WWW-Authenticate" basicChallenge }) ∧
      (∀ (σ : Type) (h : Handler σ) (s : σ),
        (basicAuth cfg h r (State.init s)).w.status = some 401 ∧
        (basicAuth cfg h r (State.init s)).w.HeaderGet "WWW-Authenticate"
          = some "Basic realm=mgmt".toList ∧
        (basicAuth cfg h r (State.init s)).store = s)) ∧
    (r.BasicAuth = some (cfg.AdminUser, cfg.AdminPass) →
      ∀ (σ : Type) (h : Handler σ) (st : State σ),
        basicAuth cfg h r st
          = match (h r st).panic with
            | some _ => h r st
            | none => logRequest 200 r (h r st)) ∧
    (∀ (st : State Nat),
      (basicAuth cfg countingHandler r st).store
        = if r.BasicAuth = some (cfg.AdminUser, cfg.AdminPass) then st.store + 1
          else st.store) := by
  refine ⟨?_, ?_, ?_⟩
  · intro hr
    have hne := mismatch_of_cases cfg r hr
    constructor
    · intro σ h st
      exact basicAuth_of_mismatch cfg hu hp h r st hne
    · intro σ h s
      rw [basicAuth_of_mismatch cfg hu hp h r _ hne]
      exact ⟨rfl, rfl, rfl⟩
  · intro hr σ h st
    exact basicAuth_of_match cfg hu hp h r st hr
  · intro st
    by_cases hr : r.BasicAuth = some (cfg.AdminUser, cfg.AdminPass)
    · rw [basicAuth_of_match cfg hu hp _ r st hr, if_pos hr]
      cases hpanic : st.panic <;> simp [countingHandler, hpanic, logRequest, loggerLog]
    · rw [basicAuth_of_mismatch cfg hu hp _ r st hr, if_neg hr]
      rfl

/-- Witness for C8: the right username with a wrong password. -/
theorem basicAuth_configured_gate_witness :
    (basicAuth exampleConfig countingHandler wrongPassRequest (State.init 0)).w.status
      = some 401 ∧
    (basicAuth exampleConfig countingHandler wrongPassRequest (State.init 0)).w.HeaderGet
      "WWW-Authenticate" = some "Basic realm=mgmt".toList ∧
    (basicAuth exampleConfig countingHandler wrongPassRequest (State.init 0)).store = 0 :=
  ((basicAuth_configured_gate exampleConfig (by decide) (by decide) wrongPassRequest).1
    (Or.inr ⟨"admin".toList, "guess".toList, rfl, Or.inr (by decide)⟩)).2 Nat countingHandler 0

/-- C9: `addUserHandler` with an empty `name` or `password` writes "Invalid username or
password" and changes nothing else, for every store, and a recording store receives no
call; `delUserHandler` with an empty `name` writes "Invalid username" and changes nothing
else; with the fields non-empty, a recording store receives exactly one call, `AddUser`
(resp. `DeleteUser`) with the submitted values, whether or not that call fails. -/
theorem user_handlers_validate_fields (r : Request) :
    ((r.FormValue "name" = [] ∨ r.FormValue "password" = []) →
      (∀ (σ : Type) (ms : MetaStore σ) (st : State σ),
        addUserHandler ms r st
          = { st with w := st.w.Write "Invalid username or password".toList }) ∧
      (∀ (fails : Nat → Bool) (st : State (List StoreCall)),
        (addUserHandler (recordingStore fails) r st).store = st.store)) ∧
    (r.FormValue "name" = [] →
      (∀ (σ : Type) (ms : MetaStore σ) (st : State σ),
        delUserHandler ms r st = { st with w := st.w.Write "Invalid username".toList }) ∧
      (∀ (fails : Nat → Bool) (st : State (List StoreCall)),
        (delUserHandler (recordingStore fails) r st).store = st.store)) ∧
    ((r.FormValue "name" ≠ [] ∧ r.FormValue "password" ≠ []) →
      ∀ (fails : Nat → Bool) (st : State (List StoreCall)),
        (addUserHandler (recordingStore fails) r st).store
          = st.store ++ [.addUser (r.FormValue "name") (r.FormValue "password")]) ∧
    (r.FormValue "name" ≠ [] →
      ∀ (fails : Nat → Bool) (st : State (List StoreCall)),
        (delUserHandler (recordingStore fails) r st).store
          = st.store ++ [.deleteUser (r.FormValue "name")]) := by
  refine ⟨?_, ?_, ?_, ?_⟩
  · intro he
    constructor
    · intro σ ms st
      unfold addUserHandler
      simp only
      rw [if_pos he]
    · intro fails st
      unfold addUserHandler
      simp only
      rw [if_pos he]
  · intro he
    constructor
    · intro σ ms st
      unfold delUserHandler
      simp only
      rw [if_pos he]
    · intro fails st
      unfold delUserHandler
      simp only
      rw [if_pos he]
  · intro hne fails st
    unfold addUserHandler
    simp only
    rw [if_neg (by simp [hne.1, hne.2])]
    cases hf : fails st.store.length <;> simp [recordingStore, hf, Redirect]
  · intro hne fails st
    unfold delUserHandler
    simp only
    rw [if_neg hne]
    cases hf : fails st.store.length <;> simp [recordingStore, hf, Redirect]

/-- Witness for C9: name `bob` with an empty password never reaches the store; name `bob`
with password `x` reaches it once. -/
theorem user_handlers_validate_fields_witness :
    (addUserHandler (recordingStore (fun _ => false)) emptyPassRequest (State.init [])).store
      = [] ∧
    (addUserHandler memStore emptyPassRequest (State.init ⟨[], []⟩)).w.body
      = "Invalid username or password".toList ∧
    (delUserHandler (recordingStore (fun _ => false)) emptyFormRequest (State.init [])).store
      = [] ∧
    (addUserHandler (recordingStore (fun _ => false)) addBobRequest (State.init [])).store
      = [.addUser "bob".toList "x".toList] :=
  ⟨((user_handlers_validate_fields emptyPassRequest).1 (Or.inr rfl)).2 (fun _ => false)
      (State.init []),
   congrArg (fun st => st.w.body)
     (((user_handlers_validate_fields emptyPassRequest).1 (Or.inr rfl)).1 MemState memStore
       (State.init ⟨[], []⟩)),
   ((user_handlers_validate_fields emptyFormRequest).2.1 rfl).2 (fun _ => false)
      (State.init []),
   (user_handlers_validate_fields addBobRequest).2.2.1 ⟨by decide, by decide⟩ (fun _ => false)
      (State.init [])⟩

/-- C10: `authenticate` returns `nil` exactly when the handler made by `basicAuth` runs
its wrapped handler (a counting wrapped handler is run once; otherwise it is not run), and
exactly when both configured values are non-empty and the request carries Basic
credentials equal to them. -/
theorem authenticate_agrees_with_basicAuth (cfg : Configuration) (r : Request)
    (st : State Nat) :
    (authenticate cfg r = none ↔
      (basicAuth cfg countingHandler r st).store = st.store + 1) ∧
    (authenticate cfg r = some "Forbidden" ↔
      (basicAuth cfg countingHandler r st).store = st.store) ∧
    (authenticate cfg r = none ↔
      cfg.AdminUser ≠ [] ∧ cfg.AdminPass ≠ [] ∧
        ∃ user pass, r.BasicAuth = some (user, pass) ∧
          user = cfg.AdminUser ∧ pass = cfg.AdminPass) := by
  by_cases hcfg : cfg.AdminUser = [] ∨ cfg.AdminPass = []
  · have ha : authenticate cfg r = some "Forbidden" := by
      unfold authenticate
      simp only
      rw [if_pos hcfg]
    have hb : (basicAuth cfg countingHandler r st).store = st.store := by
      rw [basicAuth_of_unconfigured cfg hcfg]
      rfl
    rw [ha, hb]
    refine ⟨by simp, by simp, ?_⟩
    constructor
    · intro h
      cases h
    · rintro ⟨h1, h2, _⟩
      rcases hcfg with h | h
      · exact absurd h h1
      · exact absurd h h2
  · have hu : cfg.AdminUser ≠ [] := fun h => hcfg (Or.inl h)
    have hp : cfg.AdminPass ≠ [] := fun h => hcfg (Or.inr h)
    by_cases hr : r.BasicAuth = some (cfg.AdminUser, cfg.AdminPass)
    · have ha : authenticate cfg r = none := by
        unfold authenticate
        simp only
        rw [if_neg hcfg, hr]
        simp
      have hb : (basicAuth cfg countingHandler r st).store = st.store + 1 := by
        rw [basicAuth_of_match cfg hu hp _ r st hr]
        cases hpanic : st.panic <;> simp [countingHandler, hpanic, logRequest, loggerLog]
      rw [ha, hb]
      refine ⟨by simp, by simp, ?_⟩
      constructor
      · intro _
        exact ⟨hu, hp, cfg.AdminUser, cfg.AdminPass, hr, rfl, rfl⟩
      · intro _
        rfl
    · have ha : authenticate cfg r = some "Forbidden" := by
        unfold authenticate
        simp only
        rw [if_neg hcfg]
        cases hb : r.BasicAuth with
        | none => rfl
        | some up =>
          obtain ⟨user, pass⟩ := up
          have hne : ¬ (user = cfg.AdminUser ∧ pass = cfg.AdminPass) := by
            rintro ⟨h1, h2⟩
            exact hr (by rw [hb, h1, h2])
          simp only
          rw [if_neg hne]
      have hb : (basicAuth cfg countingHandler r st).store = st.store := by
        rw [basicAuth_of_mismatch cfg hu hp _ r st hr]
        rfl
      rw [ha, hb]
      refine ⟨by simp, by simp, ?_⟩
      constructor
      · intro h
        cases h
      · rintro ⟨_, _, user, pass, hs, h1, h2⟩
        exact absurd (by rw [hs, h1, h2]) hr

end Mgmt
